import Mathlib

/-!
Shallow embedding of the LumiFi Soroban contract
(`src/contracts/hello_world/src/lib.rs`): a token registry, an ICO
manager, a withdrawal path and a constant-product liquidity pool.

Modelling conventions:
* `i128` values are modelled as `Int`; Rust's `/` on `i128` truncates
  toward zero, which is `Int.tdiv`, and panics both on a zero divisor
  and on the overflowing division `i128::MIN / -1` — both traps are
  modelled by an explicit `.panic` outcome.  Out-of-range intermediate
  values of `+`, `-` and `*` are not modelled (with overflow checks
  enabled they trap, without them they wrap), so absence-of-trap
  theorems carry explicit `inI128` range hypotheses.
* Soroban `Map` values are modelled as functions into `Option`, with
  `get` = application, `set` = pointwise update, `unwrap_or` = `Option.getD`.
* The storage substrate, authorization collaborator, asset-transfer
  collaborator and clock are external; they are modelled from the spec
  (see the doc comments on `Env`, `transferBal` and `tryTransfer`).
* Each entry point returns a `Res α`: a typed outcome (`ok`/`err`, with
  `panic` for untyped traps), the post-state of storage and asset
  balances, and the list of asset-transfer events the call performed.
-/

namespace LumiFi

/-- Account addresses (Soroban `Address`), abstracted to `Nat`. -/
abbrev Addr := Nat

/-- Pool symbols (Soroban `Symbol`), abstracted to `Nat`. -/
abbrev Sym := Nat

/-- 32-byte identifiers (Soroban `BytesN<32>`), as byte lists. -/
abbrev Bytes32 := List Nat

/-- The contract's error enum `LumiFiError` from lib.rs lines 9-17. -/
inductive LumiFiError where
  | Unauthorized
  | InsufficientFunds
  | ICOExpired
  | AlreadyInitialized
  | InvalidAmount
  | TokenNotFound
  | ICONotFound
deriving DecidableEq, Repr

/-- The `Token` record from lib.rs lines 28-32: total supply, a balance
map and the owning address. -/
structure Token where
  total_supply : Int
  balances : Addr → Option Int
  owner : Addr

/-- The `Token.new` constructor from lib.rs lines 35-43: a fresh balance
map holding only the owner's initial supply. -/
def Token.new (owner : Addr) (initial_supply : Int) : Token :=
  { total_supply := initial_supply
    balances := fun a => if a = owner then some initial_supply else none
    owner := owner }

/-- The contract's instance storage, split along the `DataKey` enum of
lib.rs lines 20-25: `Token(Address)`, `ICO(BytesN<32>)`, `User(Address)`
and `LiquidityPool(Symbol)`.  The `LiquidityPool` key stores a
`Map<Symbol, (i128, i128)>` exactly as the source does. -/
structure Storage where
  tokens : Addr → Option Token
  icos : Bytes32 → Option (Addr × Int × Nat)
  users : Addr → Option Int
  pools : Sym → Option (Sym → Option (Int × Int))

/-- Empty instance storage: no record under any key. -/
def Storage.empty : Storage :=
  { tokens := fun _ => none
    icos := fun _ => none
    users := fun _ => none
    pools := fun _ => none }

/-- An observable external effect: one invocation of the asset-transfer
collaborator, `transfer(from, to, amount)` on the token client for
`tok`. -/
inductive Event where
  | transfer (tok : Addr) (src : Addr) (dst : Addr) (amount : Int)
deriving DecidableEq, Repr

/-- Outcome of one call: a typed success, one of the typed
`LumiFiError` kinds, or an untyped trap (`panic`). -/
inductive Outcome (α : Type) where
  | ok : α → Outcome α
  | err : LumiFiError → Outcome α
  | panic : Outcome α
deriving DecidableEq, Repr

/-- Modelled from the spec: the external collaborators of section 6.
`auth` is the authorization collaborator (`require_auth(account)`
succeeds exactly on accounts with `auth = true`); `timestamp` is the
clock source `env.ledger().timestamp()`; `contractAddr` is
`env.current_contract_address()`. -/
structure Env where
  auth : Addr → Bool
  timestamp : Nat
  contractAddr : Addr

/-- The mutable world a call acts on: the contract's instance storage
plus the external asset ledger `bal tok holder` of the asset-transfer
collaborator. -/
structure World where
  store : Storage
  bal : Addr → Addr → Int

/-- Result of one entry-point call: outcome, post-state, and the
asset-transfer events performed, in order. -/
structure Res (α : Type) where
  out : Outcome α
  world : World
  events : List Event

/-- Modelled from the spec: the asset-transfer collaborator's
`transfer(from, to, amount)` balance effect — the amount is spent from
`src` and then credited to `dst` on token `tok`. -/
def transferBal (bal : Addr → Addr → Int) (tok src dst : Addr) (amount : Int) :
    Addr → Addr → Int :=
  let spent := fun t h => if t = tok ∧ h = src then bal t h - amount else bal t h
  fun t h => if t = tok ∧ h = dst then spent t h + amount else spent t h

/-- Modelled from the spec: the asset-transfer collaborator is "assumed
atomic and failing loudly if the source lacks funds"; `none` is the loud
failure, which aborts the whole call. -/
def tryTransfer (bal : Addr → Addr → Int) (tok src dst : Addr) (amount : Int) :
    Option (Addr → Addr → Int) :=
  if bal tok src < amount then none
  else some (transferBal bal tok src dst amount)

/-- The `create_token` entry point, lib.rs lines 52-71: require the
owner's authorization, reject a negative initial supply with
`InvalidAmount`, otherwise build `Token::new` and store it under
`DataKey::Token(owner)` (overwriting any prior record), returning the
owner address. -/
def create_token (env : Env) (owner : Addr) (initial_supply : Int) (w : World) :
    Res Addr :=
  if ¬ env.auth owner then ⟨.err .Unauthorized, w, []⟩
  else if initial_supply < 0 then ⟨.err .InvalidAmount, w, []⟩
  else
    let token := Token.new owner initial_supply
    let st := w.store
    ⟨.ok owner,
     { w with store :=
        { st with tokens := fun a => if a = owner then some token else st.tokens a } },
     []⟩

/-- The `mint` entry point, lib.rs lines 74-89: look up the token (else
`TokenNotFound`), require the recorded owner's authorization, add
`amount` to the total supply and to the owner's balance
(`unwrap_or(0)`), and store the updated record. -/
def mint (env : Env) (token_address : Addr) (amount : Int) (w : World) :
    Res Unit :=
  match w.store.tokens token_address with
  | none => ⟨.err .TokenNotFound, w, []⟩
  | some token =>
    if ¬ env.auth token.owner then ⟨.err .Unauthorized, w, []⟩
    else
      let owner_balance := (token.balances token.owner).getD 0
      let token' : Token :=
        { total_supply := token.total_supply + amount
          balances := fun a =>
            if a = token.owner then some (owner_balance + amount)
            else token.balances a
          owner := token.owner }
      let st := w.store
      ⟨.ok (),
       { w with store :=
          { st with tokens := fun a =>
              if a = token_address then some token' else st.tokens a } },
       []⟩

/-- The constant ICO identifier built by `start_ico`, lib.rs line 98:
`BytesN::from_array(&env, &[0; 32])`. -/
def zeroIcoId : Bytes32 := List.replicate 32 0

/-- The `start_ico` entry point, lib.rs lines 92-103: store the tuple
`(token, target_amount, deadline)` under `DataKey::ICO(ico_id)` where
`ico_id` is always the all-zero 32-byte value, and return that id.
There is no authorization check and no input validation. -/
def start_ico (_env : Env) (token : Addr) (target_amount : Int) (deadline : Nat)
    (w : World) : Res Bytes32 :=
  let ico_id := zeroIcoId
  let st := w.store
  ⟨.ok ico_id,
   { w with store :=
      { st with icos := fun i =>
          if i = ico_id then some (token, target_amount, deadline) else st.icos i } },
   []⟩

/-- The `buy_token` entry point, lib.rs lines 106-139: require the
buyer's authorization, reject `amount <= 0` with `InvalidAmount`, look
up the ICO record (else `ICONotFound`), reject calls past the deadline
with `ICOExpired`, transfer `amount` of the ICO's token from the buyer
to the contract (a collaborator failure aborts the call), then add
`amount` to the buyer's cumulative entry under `DataKey::User(buyer)`. -/
def buy_token (env : Env) (ico_id : Bytes32) (buyer : Addr) (amount : Int)
    (w : World) : Res Unit :=
  if ¬ env.auth buyer then ⟨.err .Unauthorized, w, []⟩
  else if amount ≤ 0 then ⟨.err .InvalidAmount, w, []⟩
  else
    match w.store.icos ico_id with
    | none => ⟨.err .ICONotFound, w, []⟩
    | some (token, _, deadline) =>
      if env.timestamp > deadline then ⟨.err .ICOExpired, w, []⟩
      else
        match tryTransfer w.bal token buyer env.contractAddr amount with
        | none => ⟨.panic, w, []⟩
        | some bal' =>
          let buyer_balance := (w.store.users buyer).getD 0 + amount
          let st := w.store
          ⟨.ok (),
           { store :=
              { st with users := fun a =>
                  if a = buyer then some buyer_balance else st.users a }
             bal := bal' },
           [.transfer token buyer env.contractAddr amount]⟩

/-- The `withdraw` entry point, lib.rs lines 142-158: require the
recipient's authorization, read the contract's live held balance from
the asset-transfer collaborator, reject `amount > contract_balance` with
`InsufficientFunds`, otherwise transfer `amount` from the contract to
the recipient. -/
def withdraw (env : Env) (token : Addr) (recipient : Addr) (amount : Int)
    (w : World) : Res Unit :=
  if ¬ env.auth recipient then ⟨.err .Unauthorized, w, []⟩
  else
    let contract_balance := w.bal token env.contractAddr
    if amount > contract_balance then ⟨.err .InsufficientFunds, w, []⟩
    else
      match tryTransfer w.bal token env.contractAddr recipient amount with
      | none => ⟨.panic, w, []⟩
      | some bal' =>
        ⟨.ok (), { store := w.store, bal := bal' },
         [.transfer token env.contractAddr recipient amount]⟩

/-- The `add_liquidity` entry point, lib.rs lines 161-190: require the
provider's authorization, reject non-positive amounts with
`InvalidAmount`, load the pool map stored under
`DataKey::LiquidityPool(pool_symbol)` (defaulting to an empty map), read
the reserve pair at `pool_symbol` (defaulting to `(0, 0)`), add both
amounts, and store the updated map. -/
def add_liquidity (env : Env) (pool_symbol : Sym) (provider : Addr)
    (amount_token : Int) (amount_xlm : Int) (w : World) : Res Unit :=
  if ¬ env.auth provider then ⟨.err .Unauthorized, w, []⟩
  else if amount_token ≤ 0 ∨ amount_xlm ≤ 0 then ⟨.err .InvalidAmount, w, []⟩
  else
    let pool := (w.store.pools pool_symbol).getD (fun _ => none)
    let res := (pool pool_symbol).getD (0, 0)
    let pool' := fun s =>
      if s = pool_symbol then some (res.1 + amount_token, res.2 + amount_xlm)
      else pool s
    let st := w.store
    ⟨.ok (),
     { w with store :=
        { st with pools := fun s =>
            if s = pool_symbol then some pool' else st.pools s } },
     []⟩

/-- The least `i128` value, `-2^127`. -/
def i128Min : Int := -170141183460469231731687303715884105728

/-- The greatest `i128` value, `2^127 - 1`. -/
def i128Max : Int := 170141183460469231731687303715884105727

/-- Membership of an integer in the `i128` range. -/
def inI128 (n : Int) : Prop := i128Min ≤ n ∧ n ≤ i128Max

instance (n : Int) : Decidable (inI128 n) :=
  inferInstanceAs (Decidable (_ ∧ _))

/-- The swap arithmetic of lib.rs lines 206-209 on a reserve pair
`(token_reserve, xlm_reserve)`: `token_out` is the Rust `i128` quotient
`(amount_xlm * token_reserve) / (xlm_reserve + amount_xlm)`, truncation
toward zero.  The division panics on a zero divisor and on the
overflowing case `i128::MIN / -1` — both traps are unconditional in
Rust, in every build profile.  (An out-of-range product or sum, whose
effect depends on the build profile, is not modelled; theorems about
the absence of traps take `inI128` hypotheses on these intermediate
values.)  `token_out > token_reserve` fails with `InsufficientFunds`;
on success the new reserves are
`(token_reserve - token_out, xlm_reserve + amount_xlm)`. -/
def swapCalc (token_reserve xlm_reserve amount_xlm : Int) :
    Outcome (Int × Int × Int) :=
  if xlm_reserve + amount_xlm = 0 then .panic
  else if amount_xlm * token_reserve = i128Min ∧ xlm_reserve + amount_xlm = -1 then
    .panic
  else
    let token_out := (amount_xlm * token_reserve).tdiv (xlm_reserve + amount_xlm)
    if token_out > token_reserve then .err .InsufficientFunds
    else .ok (token_out, token_reserve - token_out, xlm_reserve + amount_xlm)

/-- The `swap` entry point, lib.rs lines 193-220: look up the pool map
(else `TokenNotFound`), `unwrap()` the reserve pair at `pool_symbol`
(panicking when absent), run the swap arithmetic of `swapCalc`, and on
success store the updated reserve pair and return `token_out`. -/
def swap (_env : Env) (pool_symbol : Sym) (amount_xlm : Int) (w : World) :
    Res Int :=
  match w.store.pools pool_symbol with
  | none => ⟨.err .TokenNotFound, w, []⟩
  | some pool =>
    match pool pool_symbol with
    | none => ⟨.panic, w, []⟩
    | some (token_reserve, xlm_reserve) =>
      match swapCalc token_reserve xlm_reserve amount_xlm with
      | .panic => ⟨.panic, w, []⟩
      | .err e => ⟨.err e, w, []⟩
      | .ok (token_out, res') =>
        let pool' := fun s => if s = pool_symbol then some res' else pool s
        let st := w.store
        ⟨.ok token_out,
         { w with store :=
            { st with pools := fun s =>
                if s = pool_symbol then some pool' else st.pools s } },
         []⟩

/-- The reserve pair the contract reads for symbol `s`: the entry at `s`
of the pool map stored under `DataKey::LiquidityPool(s)`. -/
def poolRes (w : World) (s : Sym) : Option (Int × Int) :=
  (w.store.pools s).bind (fun pool => pool s)

/-- Iterated swaps on a reserve pair: apply `swapCalc` for each input in
turn, propagating errors and panics. -/
def swapSeq : Int × Int → List Int → Outcome (Int × Int)
  | p, [] => .ok p
  | p, x :: xs =>
    match swapCalc p.1 p.2 x with
    | .ok (_, p') => swapSeq p' xs
    | .err e => .err e
    | .panic => .panic

/-- An environment where every account is authorized, time is 0 and the
contract's own address is 999. -/
def env0 : Env := { auth := fun _ => true, timestamp := 0, contractAddr := 999 }

/-- Empty world: empty storage and a zero asset ledger. -/
def w0 : World := { store := Storage.empty, bal := fun _ _ => 0 }

/-- A reachable world holding pool 0 with reserves `(1000, 1000)`,
built by one `add_liquidity` call. -/
def wPool : World := (add_liquidity env0 0 7 1000 1000 w0).world

/-- A reachable world holding pool 0 with reserves `(2, 2)`, built by
one `add_liquidity` call. -/
def wSmall : World := (add_liquidity env0 0 7 2 2 w0).world

/-- A reachable world holding pool 1 with reserves `(1, i128::MAX)`,
built by one `add_liquidity` call. -/
def wEdge : World := (add_liquidity env0 1 7 1 i128Max w0).world

/-- A reachable world holding a token owned by account 5 with initial
supply 10, built by one `create_token` call. -/
def wTok : World := (create_token env0 5 10 w0).world

/-- A reachable world holding the ICO record `(55, 500, 100)` under the
zero identifier, with every account funded with 100 units of every
asset. -/
def wBuy : World :=
  { store := (start_ico env0 55 500 100 w0).world.store
    bal := fun _ _ => 100 }

/-- A world whose asset ledger holds 50 units of every asset on every
account (in particular on the contract's own address). -/
def wBal : World := { store := Storage.empty, bal := fun _ _ => 50 }

/-- Non-negativity of all reserve pairs stored under any liquidity-pool
key of the world. -/
def PoolInv (w : World) : Prop :=
  ∀ s pool s' tr xr, w.store.pools s = some pool → pool s' = some (tr, xr) →
    0 ≤ tr ∧ 0 ≤ xr

/-- Core arithmetic of the fee-less constant-product swap: on
non-negative reserves and a non-negative input with a non-zero divisor,
`swapCalc` succeeds, its output lies in `[0, token_reserve]`, and the
reserve product does not decrease. -/
lemma swapCalc_ok_of_nonneg (tr xr x : Int) (htr : 0 ≤ tr) (hxr : 0 ≤ xr)
    (hx : 0 ≤ x) (hd : xr + x ≠ 0) :
    swapCalc tr xr x = .ok ((x * tr).tdiv (xr + x),
      tr - (x * tr).tdiv (xr + x), xr + x) ∧
    0 ≤ (x * tr).tdiv (xr + x) ∧ (x * tr).tdiv (xr + x) ≤ tr ∧
    tr * xr ≤ (tr - (x * tr).tdiv (xr + x)) * (xr + x) := by
  have hd0 : 0 ≤ xr + x := by linarith
  have hdpos : 0 < xr + x := lt_of_le_of_ne hd0 (Ne.symm hd)
  have hnum : 0 ≤ x * tr := mul_nonneg hx htr
  have ht : (x * tr).tdiv (xr + x) = (x * tr) / (xr + x) := Int.tdiv_eq_ediv hnum hd0
  have hle : (x * tr).tdiv (xr + x) ≤ tr := by
    rw [ht]
    have h1 : x * tr ≤ (xr + x) * tr := mul_le_mul_of_nonneg_right (by linarith) htr
    have h2 := Int.ediv_le_ediv hdpos h1
    rwa [Int.mul_ediv_cancel_left tr (ne_of_gt hdpos)] at h2
  have hnn : 0 ≤ (x * tr).tdiv (xr + x) := by
    rw [ht]; exact Int.ediv_nonneg hnum hd0
  have hmul : (x * tr).tdiv (xr + x) * (xr + x) ≤ x * tr := by
    rw [ht]; exact Int.ediv_mul_le (x * tr) hd
  have hov : ¬ (x * tr = i128Min ∧ xr + x = -1) := by
    rintro ⟨_, h2⟩
    omega
  refine ⟨?_, hnn, hle, ?_⟩
  · simp only [swapCalc, if_neg hd, if_neg hov]
    rw [if_neg (by omega)]
  · nlinarith [hmul]

/-- Iterating `swapCalc` over positive inputs from non-negative reserves
always succeeds, keeps the reserves non-negative, never decreases the
reserve product, and never decreases the reference reserve. -/
lemma swapSeq_ok (xs : List Int) (p : Int × Int) (h1 : 0 ≤ p.1) (h2 : 0 ≤ p.2)
    (hxs : ∀ y ∈ xs, 0 < y) :
    ∃ p', swapSeq p xs = .ok p' ∧ 0 ≤ p'.1 ∧ 0 ≤ p'.2 ∧
      p.1 * p.2 ≤ p'.1 * p'.2 ∧ p.2 ≤ p'.2 := by
  induction xs generalizing p with
  | nil => exact ⟨p, rfl, h1, h2, le_refl _, le_refl _⟩
  | cons x xs ih =>
    have hx : 0 < x := hxs x (List.mem_cons_self x xs)
    have hd : p.2 + x ≠ 0 := by omega
    obtain ⟨heq, hnn, hle, hprod⟩ :=
      swapCalc_ok_of_nonneg p.1 p.2 x h1 h2 (le_of_lt hx) hd
    obtain ⟨p', hseq, h1', h2', hprod', hr'⟩ :=
      ih (p.1 - (x * p.1).tdiv (p.2 + x), p.2 + x) (by omega) (by omega)
        (fun y hy => hxs y (List.mem_cons_of_mem x hy))
    refine ⟨p', ?_, h1', h2', le_trans hprod hprod', by omega⟩
    rw [swapSeq, heq]
    exact hseq

/-- Shape of the pool storage after a successful `add_liquidity`: only
the entry at `pool_symbol` of the map stored under `pool_symbol`
changes, to the sum of the old reserves (defaulting to `(0, 0)`) and the
added amounts. -/
lemma add_liquidity_world_pools (env : Env) (s : Sym) (p : Addr) (a b : Int)
    (w : World) (h1 : env.auth p = true) (ha : 0 < a) (hb : 0 < b) :
    (add_liquidity env s p a b w).world.store.pools = fun s₁ =>
      if s₁ = s then
        some (fun s₂ =>
          if s₂ = s then
            some ((((w.store.pools s).getD (fun _ => none) s).getD (0, 0)).1 + a,
                  (((w.store.pools s).getD (fun _ => none) s).getD (0, 0)).2 + b)
          else (w.store.pools s).getD (fun _ => none) s₂)
      else w.store.pools s₁ := by
  have hcond : ¬(a ≤ 0 ∨ b ≤ 0) := by omega
  simp [add_liquidity, h1, hcond]

/-- Shape of a successful `swap`: it returns the computed output and
rewrites only the entry at `pool_symbol` of the map stored under
`pool_symbol` to the new reserve pair. -/
lemma swap_world_ok (env : Env) (s : Sym) (x : Int) (w : World)
    (pool : Sym → Option (Int × Int)) (tr xr out : Int) (res' : Int × Int)
    (hp : w.store.pools s = some pool) (hps : pool s = some (tr, xr))
    (hcalc : swapCalc tr xr x = .ok (out, res')) :
    (swap env s x w).out = .ok out ∧
    (swap env s x w).world.store.pools = fun s₁ =>
      if s₁ = s then some (fun s₂ => if s₂ = s then some res' else pool s₂)
      else w.store.pools s₁ := by
  constructor
  · simp [swap, hp, hps, hcalc]
  · simp [swap, hp, hps, hcalc]



/-- Every entry of the pool map `add_liquidity` loads (defaulting to
the empty map) is non-negative in a world satisfying `PoolInv`. -/
lemma base_pool_entry (w : World) (s : Sym) (hw : PoolInv w) (s₂ : Sym) (tr xr : Int)
    (h : (w.store.pools s).getD (fun _ => none) s₂ = some (tr, xr)) :
    0 ≤ tr ∧ 0 ≤ xr := by
  rcases hq : w.store.pools s with _ | m
  · rw [hq] at h; simp at h
  · rw [hq] at h
    simp only [Option.getD_some] at h
    exact hw s m s₂ tr xr hq h

/-- The defaulted reserve pair `add_liquidity` reads is non-negative in
a world satisfying `PoolInv`. -/
lemma base_res_nonneg (w : World) (s : Sym) (hw : PoolInv w) :
    0 ≤ (((w.store.pools s).getD (fun _ => none) s).getD (0, 0)).1 ∧
    0 ≤ (((w.store.pools s).getD (fun _ => none) s).getD (0, 0)).2 := by
  rcases hm : (w.store.pools s).getD (fun _ => none) s with _ | ⟨t0, x0⟩
  · simp
  · simpa using base_pool_entry w s hw s t0 x0 hm

/-- On a failed authorization or a non-positive amount,
`add_liquidity` leaves the world unchanged. -/
lemma add_liquidity_err_world (env : Env) (s : Sym) (p : Addr) (a b : Int)
    (w : World) (h : ¬(env.auth p = true) ∨ a ≤ 0 ∨ b ≤ 0) :
    (add_liquidity env s p a b w).world = w := by
  unfold add_liquidity
  split_ifs with h1 h2 <;> first | rfl | tauto

/-- C2 (amended): from any world whose stored reserve pairs are all
non-negative, every `add_liquidity` preserves that invariant, and every
`swap` with non-negative input preserves it and, when it succeeds, does
not decrease the product of the swapped pool's reserves. -/
theorem pool_invariant_nonneg_product (env : Env) (w : World) (hw : PoolInv w) :
    (∀ s p a b, PoolInv (add_liquidity env s p a b w).world) ∧
    (∀ s x, 0 ≤ x →
      PoolInv (swap env s x w).world ∧
      ∀ tr xr out, poolRes w s = some (tr, xr) → (swap env s x w).out = .ok out →
        ∃ tr' xr', poolRes (swap env s x w).world s = some (tr', xr') ∧
          tr * xr ≤ tr' * xr') := by
  constructor
  · intro s p a b
    by_cases h1 : env.auth p = true
    case neg =>
      rw [add_liquidity_err_world env s p a b w (Or.inl h1)]
      exact hw
    by_cases ha : 0 < a
    case neg =>
      rw [add_liquidity_err_world env s p a b w (Or.inr (Or.inl (by omega)))]
      exact hw
    by_cases hb : 0 < b
    case neg =>
      rw [add_liquidity_err_world env s p a b w (Or.inr (Or.inr (by omega)))]
      exact hw
    · intro s₁ pool₁ s' tr xr hp₁ hentry
      rw [add_liquidity_world_pools env s p a b w h1 ha hb] at hp₁
      simp only [] at hp₁
      rcases eq_or_ne s₁ s with rfl | hne
      · rw [if_pos rfl, Option.some.injEq] at hp₁
        subst hp₁
        simp only [] at hentry
        rcases eq_or_ne s' s₁ with rfl | hne'
        · rw [if_pos rfl, Option.some.injEq, Prod.mk.injEq] at hentry
          obtain ⟨he1, he2⟩ := hentry
          obtain ⟨hb1, hb2⟩ := base_res_nonneg w s' hw
          constructor <;> omega
        · rw [if_neg hne'] at hentry
          exact base_pool_entry _ _ hw _ _ _ hentry
      · rw [if_neg hne] at hp₁
        exact hw s₁ pool₁ s' tr xr hp₁ hentry
  · intro s x hx
    rcases hp : w.store.pools s with _ | pool
    · constructor
      · simpa [swap, hp] using hw
      · intro tr xr out hres
        simp [poolRes, hp] at hres
    · rcases hps : pool s with _ | ⟨tr0, xr0⟩
      · constructor
        · simpa [swap, hp, hps] using hw
        · intro tr xr out hres hout
          simp [swap, hp, hps] at hout
      · obtain ⟨htr0, hxr0⟩ := hw s pool s tr0 xr0 hp hps
        by_cases hd : xr0 + x = 0
        · have hcalc : swapCalc tr0 xr0 x = .panic := by
            simp [swapCalc, if_pos hd]
          constructor
          · simpa [swap, hp, hps, hcalc] using hw
          · intro tr xr out hres hout
            simp [swap, hp, hps, hcalc] at hout
        · obtain ⟨hcalc, hnn, hle, hprod⟩ :=
            swapCalc_ok_of_nonneg tr0 xr0 x htr0 hxr0 hx hd
          obtain ⟨hout, hpools⟩ :=
            swap_world_ok env s x w pool tr0 xr0 _ _ hp hps hcalc
          constructor
          · intro s₁ pool₁ s' tr xr hp₁ hentry
            rw [hpools] at hp₁
            simp only [] at hp₁
            rcases eq_or_ne s₁ s with rfl | hne
            · rw [if_pos rfl, Option.some.injEq] at hp₁
              subst hp₁
              simp only [] at hentry
              rcases eq_or_ne s' s₁ with rfl | hne'
              · rw [if_pos rfl, Option.some.injEq, Prod.mk.injEq] at hentry
                obtain ⟨he1, he2⟩ := hentry
                constructor <;> omega
              · rw [if_neg hne'] at hentry
                exact hw s₁ pool s' tr xr hp hentry
            · rw [if_neg hne] at hp₁
              exact hw s₁ pool₁ s' tr xr hp₁ hentry
          · intro tr xr out hres hout'
            rw [poolRes, hp, Option.some_bind, hps, Option.some.injEq,
              Prod.mk.injEq] at hres
            obtain ⟨rfl, rfl⟩ := hres
            refine ⟨tr0 - (x * tr0).tdiv (xr0 + x), xr0 + x, ?_, hprod⟩
            rw [poolRes, hpools]
            simp

/-- C2 witness: the empty world satisfies the invariant, and one
liquidity addition keeps all stored reserves non-negative. -/
theorem pool_invariant_nonneg_product_witness :
    PoolInv (add_liquidity env0 0 7 2 2 w0).world := by
  have hw : PoolInv w0 := by
    intro s pool s' tr xr hp
    simp [w0, Storage.empty] at hp
  exact (pool_invariant_nonneg_product env0 w0 hw).1 0 7 2 2

/-- C2 counterexample: from the reachable pool `(2, 2)` a swap with
input `-10` succeeds (output 2) and leaves the stored reserves
`(0, -8)`: the reference reserve is negative and the reserve product
has strictly decreased (0 < 4). -/
theorem pool_negative_reserve_counterexample :
    (swap env0 0 (-10) wSmall).out = .ok 2 ∧
    poolRes (swap env0 0 (-10) wSmall).world 0 = some (0, -8) ∧
    ((-8 : Int) < 0) ∧
    ((0 : Int) * (-8) < 2 * 2) := by decide

/-- C3 (amended): on non-negative reserves `(tr, xr)` and positive input
`x`, the swap arithmetic succeeds with `0 ≤ token_out ≤ tr`, adds
exactly `x` to the reference reserve and subtracts exactly `token_out`
from the token reserve; iterating it over any sequence of positive
inputs succeeds, never decreases the reserve product below its pre-swap
value, and never decreases the reference reserve. -/
theorem swap_monotone_spec (tr xr x : Int) (htr : 0 ≤ tr) (hxr : 0 ≤ xr)
    (hx : 0 < x) :
    (swapCalc tr xr x = .ok ((x * tr).tdiv (xr + x),
        tr - (x * tr).tdiv (xr + x), xr + x) ∧
      0 ≤ (x * tr).tdiv (xr + x) ∧ (x * tr).tdiv (xr + x) ≤ tr) ∧
    (∀ xs, (∀ y ∈ xs, 0 < y) →
      ∃ p', swapSeq (tr, xr) xs = .ok p' ∧
        tr * xr ≤ p'.1 * p'.2 ∧ xr ≤ p'.2) := by
  have hd : xr + x ≠ 0 := by omega
  obtain ⟨heq, hnn, hle, _⟩ := swapCalc_ok_of_nonneg tr xr x htr hxr (le_of_lt hx) hd
  refine ⟨⟨heq, hnn, hle⟩, fun xs hxs => ?_⟩
  obtain ⟨p', hseq, _, _, hprod, hr⟩ := swapSeq_ok xs (tr, xr) htr hxr hxs
  exact ⟨p', hseq, hprod, hr⟩

/-- C3 witness: instantiated at reserves `(1000, 1000)`: a swap of 100
yields output 90 and reserves `(910, 1100)`, and the two-swap sequence
`[100, 50]` keeps the reserve product at or above 1000000 and the
reference reserve at or above 1000. -/
theorem swap_monotone_spec_witness :
    swapCalc 1000 1000 100 = .ok (90, 910, 1100) ∧
    (∃ p', swapSeq (1000, 1000) [100, 50] = .ok p' ∧
      1000 * 1000 ≤ p'.1 * p'.2 ∧ 1000 ≤ p'.2) := by
  have h := swap_monotone_spec 1000 1000 100 (by decide) (by decide) (by decide)
  exact ⟨by decide, h.2 [100, 50] (by decide)⟩

/-- C3 counterexample: the claim's product direction is reversed —
one fee-less swap of 100 on reserves `(1000, 1000)` strictly increases
the product (rounding favors the pool) — and on a reachable pool with a
negative reference reserve a positive-input swap returns a negative
output, violating `0 ≤ token_out`. -/
theorem swap_monotone_counterexample :
    (swapSeq (1000, 1000) [100] = .ok (910, 1100) ∧
      1000 * 1000 < 910 * 1100) ∧
    (swapCalc 5 (-3) 1 = .ok (-2, 7, -2) ∧ (-2 : Int) < 0) := by decide

/-- C4 (amended): `create_token`, `start_ico` and `withdraw` always
terminate in a typed outcome (a success or one of the seven error
kinds); `mint`, `add_liquidity` and `buy_token` do so whenever their
`i128` additions stay in range (under a build profile with overflow
checks an out-of-range sum traps instead, and `buy_token` also traps
when the external asset transfer fails); and `swap` does so whenever
the stored pool map has an entry for the symbol, its divisor
`xlm_reserve + amount_xlm` is non-zero, the division is not the
overflowing case `i128::MIN / -1`, and its product, divisor sum and
reserve-update subtraction stay in range — outside these conditions a
swap call ends in an untyped trap. -/
theorem ops_typed_outcomes (env : Env) (w : World) :
    (∀ o i, (create_token env o i w).out ≠ .panic) ∧
    (∀ t g d, (start_ico env t g d w).out ≠ .panic) ∧
    (∀ tok r a, (withdraw env tok r a w).out ≠ .panic) ∧
    (∀ ta a, (∀ tok, w.store.tokens ta = some tok →
        inI128 (tok.total_supply + a) ∧
        inI128 ((tok.balances tok.owner).getD 0 + a)) →
      (mint env ta a w).out ≠ .panic) ∧
    (∀ s p a b,
      inI128 ((((w.store.pools s).getD (fun _ => none) s).getD (0, 0)).1 + a) →
      inI128 ((((w.store.pools s).getD (fun _ => none) s).getD (0, 0)).2 + b) →
      (add_liquidity env s p a b w).out ≠ .panic) ∧
    (∀ ico b a,
      (∀ tok tgt dl, w.store.icos ico = some (tok, tgt, dl) →
        tryTransfer w.bal tok b env.contractAddr a ≠ none) →
      inI128 ((w.store.users b).getD 0 + a) →
      (buy_token env ico b a w).out ≠ .panic) ∧
    (∀ s x pool tr xr, w.store.pools s = some pool → pool s = some (tr, xr) →
      xr + x ≠ 0 → ¬ (x * tr = i128Min ∧ xr + x = -1) →
      inI128 (x * tr) → inI128 (xr + x) →
      inI128 (tr - (x * tr).tdiv (xr + x)) →
      (swap env s x w).out ≠ .panic) := by
  refine ⟨?_, ?_, ?_, ?_, ?_, ?_, ?_⟩
  · intro o i
    unfold create_token
    split_ifs <;> simp
  · intro t g d
    simp [start_ico]
  · intro tok r a
    unfold withdraw
    by_cases h1 : env.auth r
    case neg => simp [h1]
    by_cases h2 : a > w.bal tok env.contractAddr
    · simp [h1, h2]
    · have htt : tryTransfer w.bal tok env.contractAddr r a =
        some (transferBal w.bal tok env.contractAddr r a) := by
        simp [tryTransfer, if_neg (by omega : ¬ w.bal tok env.contractAddr < a)]
      simp [h1, h2, htt]
  · intro ta a _hin
    unfold mint
    rcases w.store.tokens ta with _ | tok
    · simp
    · by_cases h : env.auth tok.owner <;> simp [h]
  · intro s p a b _hin1 _hin2
    unfold add_liquidity
    split_ifs <;> simp
  · intro ico b a htr _hin
    unfold buy_token
    by_cases h1 : env.auth b
    case neg => simp [h1]
    by_cases h2 : a ≤ 0
    case pos => simp [h1, h2]
    simp only [h1, not_true_eq_false, if_false, h2, if_true]
    rcases hico : w.store.icos ico with _ | ⟨tok, tgt, dl⟩
    · simp
    · by_cases h3 : env.timestamp > dl
      · simp [h3]
      · rcases htt : tryTransfer w.bal tok b env.contractAddr a with _ | bal'
        · exact absurd htt (htr tok tgt dl hico)
        · simp [h3, htt]
  · intro s x pool tr xr hp hps hd hov _hin1 _hin2 _hin3
    by_cases hgt : (x * tr).tdiv (xr + x) > tr
    · simp [swap, hp, hps, swapCalc, if_neg hd, if_neg hov, if_pos hgt]
    · simp [swap, hp, hps, swapCalc, if_neg hd, if_neg hov, if_neg hgt]

/-- C4 witness: a concrete swap on the reachable pool `(1000, 1000)`
with input 100 — entry present, non-zero divisor, non-overflowing
division, all intermediate values in the `i128` range — does not
panic. -/
theorem ops_typed_outcomes_witness :
    (swap env0 0 100 wPool).out ≠ .panic := by
  exact (ops_typed_outcomes env0 wPool).2.2.2.2.2.2 0 100
    ((wPool.store.pools 0).get (by decide)) 1000 1000
    (Option.some_get (by decide)).symm (by decide) (by decide) (by decide)
    (by decide) (by decide) (by decide)

/-- C4 counterexample: two reachable inputs end in an untyped trap, not
a typed outcome — on the pool `(1000, 1000)` the input `-1000` zeroes
swap's divisor, and on the pool `(1, i128::MAX)` the in-range input
`i128::MIN` hits the overflowing division `i128::MIN / -1`. -/
theorem swap_div_zero_panic_counterexample :
    (swap env0 0 (-1000) wPool).out = .panic ∧
    (swap env0 1 i128Min wEdge).out = .panic := by decide

/-- C5: given an authorized buyer, `buy_token` fails with
`InvalidAmount` for every amount ≤ 0, with `ICONotFound` when no ICO
record exists for the identifier, and with `ICOExpired` when the ledger
time exceeds the stored deadline — in each case leaving the world (so
in particular the contribution ledger) unchanged with no transfer; on a
successful call it performs exactly one asset transfer of `amount` from
the buyer to the contract and increases the buyer's cumulative
contribution entry by exactly `amount`, touching no other entry; and
when the transfer collaborator fails the call aborts with the
contribution ledger unchanged (the transfer is attempted before the
ledger entry is updated). -/
theorem buy_token_spec (env : Env) (ico : Bytes32) (buyer : Addr) (amount : Int)
    (w : World) (hauth : env.auth buyer = true) :
    (amount ≤ 0 → buy_token env ico buyer amount w = ⟨.err .InvalidAmount, w, []⟩) ∧
    (0 < amount → w.store.icos ico = none →
      buy_token env ico buyer amount w = ⟨.err .ICONotFound, w, []⟩) ∧
    (∀ tok tgt dl, 0 < amount → w.store.icos ico = some (tok, tgt, dl) →
      env.timestamp > dl →
      buy_token env ico buyer amount w = ⟨.err .ICOExpired, w, []⟩) ∧
    (∀ tok tgt dl, 0 < amount → w.store.icos ico = some (tok, tgt, dl) →
      ¬ env.timestamp > dl →
      (tryTransfer w.bal tok buyer env.contractAddr amount = none →
        (buy_token env ico buyer amount w).out = .panic ∧
        (buy_token env ico buyer amount w).world = w) ∧
      (∀ bal', tryTransfer w.bal tok buyer env.contractAddr amount = some bal' →
        (buy_token env ico buyer amount w).out = .ok () ∧
        (buy_token env ico buyer amount w).events =
          [.transfer tok buyer env.contractAddr amount] ∧
        (buy_token env ico buyer amount w).world.store.users buyer =
          some ((w.store.users buyer).getD 0 + amount) ∧
        (∀ b, b ≠ buyer →
          (buy_token env ico buyer amount w).world.store.users b =
            w.store.users b) ∧
        (buy_token env ico buyer amount w).world.bal = bal')) := by
  refine ⟨?_, ?_, ?_, ?_⟩
  · intro h
    simp [buy_token, hauth, h]
  · intro h hico
    have hpos : ¬ amount ≤ 0 := by omega
    simp [buy_token, hauth, hpos, hico]
  · intro tok tgt dl h hico h3
    have hpos : ¬ amount ≤ 0 := by omega
    simp [buy_token, hauth, hpos, hico, h3]
  · intro tok tgt dl h hico h3
    have hpos : ¬ amount ≤ 0 := by omega
    constructor
    · intro htt
      constructor <;> simp [buy_token, hauth, hpos, hico, h3, htt]
    · intro bal' htt
      refine ⟨?_, ?_, ?_, ?_, ?_⟩ <;>
        simp [buy_token, hauth, hpos, hico, h3, htt]
      intro b hb
      simp [hb]

/-- C5 witness: on the reachable ICO record `(55, 500, 100)` under the
zero identifier, an authorized funded buyer purchasing 5 before the
deadline succeeds and the buyer's contribution entry becomes 5. -/
theorem buy_token_spec_witness :
    (buy_token env0 zeroIcoId 7 5 wBuy).out = .ok () ∧
    (buy_token env0 zeroIcoId 7 5 wBuy).world.store.users 7 = some 5 := by
  have h := ((buy_token_spec env0 zeroIcoId 7 5 wBuy rfl).2.2.2 55 500 100
    (by decide) (by decide) (by decide)).2
    (transferBal wBuy.bal 55 7 (env0.contractAddr) 5) rfl
  refine ⟨h.1, ?_⟩
  rw [h.2.2.1]
  decide

/-- C6: given an authorized owner, `create_token` on `initial_supply ≥ 0`
succeeds, returns the owner account, and stores a token whose total
supply and owner balance both equal `initial_supply`; on
`initial_supply < 0` it fails with `InvalidAmount` leaving the world
untouched; it never raises `AlreadyInitialized`, and re-invocation with
the same owner silently overwrites the prior record. -/
theorem create_token_spec (env : Env) (owner : Addr) (init₁ init₂ : Int)
    (w : World) (hauth : env.auth owner = true) :
    (0 ≤ init₁ →
      (create_token env owner init₁ w).out = .ok owner ∧
      ∃ tok, (create_token env owner init₁ w).world.store.tokens owner = some tok ∧
        tok.total_supply = init₁ ∧ tok.balances owner = some init₁ ∧
        tok.owner = owner) ∧
    (init₁ < 0 → create_token env owner init₁ w = ⟨.err .InvalidAmount, w, []⟩) ∧
    ((create_token env owner init₁ w).out ≠ .err .AlreadyInitialized) ∧
    (0 ≤ init₂ →
      ∃ tok, (create_token env owner init₂
          (create_token env owner init₁ w).world).world.store.tokens owner =
            some tok ∧
        tok.total_supply = init₂ ∧ tok.balances owner = some init₂) := by
  refine ⟨?_, ?_, ?_, ?_⟩
  · intro h
    have hge : ¬ init₁ < 0 := by omega
    refine ⟨by simp [create_token, hauth, hge],
      Token.new owner init₁, ?_, rfl, by simp [Token.new], rfl⟩
    simp [create_token, hauth, hge]
  · intro h
    simp [create_token, hauth, h]
  · by_cases h : init₁ < 0 <;> simp [create_token, hauth, h]
  · intro h
    have hge : ¬ init₂ < 0 := by omega
    refine ⟨Token.new owner init₂, ?_, rfl, by simp [Token.new]⟩
    simp [create_token, hauth, hge]

/-- C6 witness: creating a token with supply 10 succeeds returning the
owner, and creating one with supply -1 fails with `InvalidAmount`. -/
theorem create_token_spec_witness :
    (create_token env0 5 10 w0).out = .ok 5 ∧
    (create_token env0 5 (-1) w0).out = .err .InvalidAmount := by
  have h1 := (create_token_spec env0 5 10 3 w0 rfl).1 (by decide)
  have h2 := (create_token_spec env0 5 (-1) 3 w0 rfl).2.1 (by decide)
  exact ⟨h1.1, by rw [h2]⟩

/-- C7: `mint` fails with `TokenNotFound` when no token record exists
for the address; on a stored token whose owner authorizes, a mint of any
amount (negative included) succeeds, increasing the total supply and the
owner's balance by exactly that amount while changing no other balance
and no other token record. -/
theorem mint_spec (env : Env) (ta : Addr) (amount : Int) (w : World) :
    (w.store.tokens ta = none → mint env ta amount w = ⟨.err .TokenNotFound, w, []⟩) ∧
    (∀ tok, w.store.tokens ta = some tok → env.auth tok.owner = true →
      (mint env ta amount w).out = .ok () ∧
      ∃ tok', (mint env ta amount w).world.store.tokens ta = some tok' ∧
        tok'.total_supply = tok.total_supply + amount ∧
        (tok'.balances tok.owner).getD 0 = (tok.balances tok.owner).getD 0 + amount ∧
        (∀ b, b ≠ tok.owner → tok'.balances b = tok.balances b) ∧
        (∀ a, a ≠ ta → (mint env ta amount w).world.store.tokens a =
          w.store.tokens a)) := by
  constructor
  · intro h
    simp [mint, h]
  · intro tok hp hauth'
    refine ⟨by simp [mint, hp, hauth'], ?_⟩
    refine ⟨{ total_supply := tok.total_supply + amount
              balances := fun a =>
                if a = tok.owner then some ((tok.balances tok.owner).getD 0 + amount)
                else tok.balances a
              owner := tok.owner }, ?_, rfl, by simp, ?_, ?_⟩
    · simp [mint, hp, hauth']
    · intro b hb
      simp [hb]
    · intro a ha
      simp [mint, hp, hauth', ha]

/-- C7 witness: a negative mint of -4 on the reachable token owned by
account 5 (initial supply 10) succeeds. -/
theorem mint_spec_witness :
    (mint env0 5 (-4) wTok).out = .ok () := by
  exact ((mint_spec env0 5 (-4) wTok).2 (Token.new 5 10) rfl rfl).1

/-- C8: given an authorized recipient, `withdraw` fails with
`InsufficientFunds` and performs no transfer for every amount strictly
greater than the contract's live held balance of the token; withdrawing
exactly the held balance (to a recipient other than the contract
itself) succeeds, performs exactly one transfer of that amount from the
contract to the recipient, and brings the contract's held balance to
zero without touching contract storage. -/
theorem withdraw_spec (env : Env) (token recipient : Addr) (amount : Int)
    (w : World) (hauth : env.auth recipient = true) :
    (amount > w.bal token env.contractAddr →
      withdraw env token recipient amount w = ⟨.err .InsufficientFunds, w, []⟩) ∧
    (recipient ≠ env.contractAddr → amount = w.bal token env.contractAddr →
      (withdraw env token recipient amount w).out = .ok () ∧
      (withdraw env token recipient amount w).events =
        [.transfer token env.contractAddr recipient amount] ∧
      (withdraw env token recipient amount w).world.bal token env.contractAddr = 0 ∧
      (withdraw env token recipient amount w).world.store = w.store) := by
  constructor
  · intro h
    simp [withdraw, hauth, h]
  · intro hne heq
    have hnot : ¬ amount > w.bal token env.contractAddr := by omega
    have hlt : ¬ w.bal token env.contractAddr < amount := by omega
    have htt : tryTransfer w.bal token env.contractAddr recipient amount =
        some (transferBal w.bal token env.contractAddr recipient amount) := by
      simp [tryTransfer, hlt]
    refine ⟨?_, ?_, ?_, ?_⟩ <;>
      simp [withdraw, hauth, hnot, htt, transferBal, Ne.symm hne]
    omega

/-- C8 witness: with a held balance of 50, an authorized recipient
withdrawing exactly 50 succeeds and the held balance becomes 0. -/
theorem withdraw_spec_witness :
    (withdraw env0 3 7 50 wBal).out = .ok () ∧
    (withdraw env0 3 7 50 wBal).world.bal 3 999 = 0 := by
  have h := (withdraw_spec env0 3 7 50 wBal rfl).2 (by decide) (by decide)
  exact ⟨h.1, h.2.2.1⟩

/-- C9: `start_ico` returns the all-zero 32-byte identifier for every
input, stores the sale under that one key, and a successive sale stored
under the same key silently overwrites the previous record. -/
theorem start_ico_zero_id (env env₂ : Env) (t t₂ : Addr) (g g₂ : Int)
    (d d₂ : Nat) (w : World) :
    (start_ico env t g d w).out = .ok zeroIcoId ∧
    (start_ico env t g d w).world.store.icos zeroIcoId = some (t, g, d) ∧
    (start_ico env₂ t₂ g₂ d₂
      (start_ico env t g d w).world).world.store.icos zeroIcoId =
        some (t₂, g₂, d₂) := by
  refine ⟨rfl, ?_, ?_⟩ <;> simp [start_ico]

/-- C10: `start_ico` performs no authorization check and no input
validation: its result is identical under the all-deny authorization
environment, and for every token, target amount (negatives included)
and deadline (past ones included) it succeeds, storing the tuple in the
fixed identifier's slot over whatever record was there before. -/
theorem start_ico_no_auth_no_validation (env : Env) (t : Addr) (g : Int)
    (d : Nat) (w : World) :
    start_ico env t g d w = start_ico { env with auth := fun _ => false } t g d w ∧
    (start_ico { env with auth := fun _ => false } t g d w).out = .ok zeroIcoId ∧
    (start_ico { env with auth := fun _ => false } t g d w).world.store.icos
      zeroIcoId = some (t, g, d) := by
  refine ⟨rfl, rfl, ?_⟩
  simp [start_ico]

end LumiFi
